import Mathlib

/-!
Verification of the core protocol engine of `electron-effect-rpc`:
the response-envelope parser (`src/protocol.ts`), the host-side call
dispatcher and event publisher (`src/main.ts`), and the client-side
envelope classifier (`src/testing.ts`).  JavaScript runtime values are
modelled by the inductive `JsValue`; functions that may throw are
modelled in `Except`.
-/

namespace ElectronEffectRpc

/-- Model of a JavaScript runtime value.  `err` models an `Error`
instance (its `name` and `message` plus any additional own fields such
as `_tag`); `obj` models a plain keyed record. -/
inductive JsValue where
  | undefinedJs
  | null
  | boolean (b : Bool)
  | num (n : Int)
  | str (s : String)
  | err (name msg : String) (fields : List (String × JsValue))
  | obj (fields : List (String × JsValue))
  deriving Repr

/-- Model of `typeof value === "object" && value !== null` (from `isRecord` in
`src/protocol.ts`): plain objects and `Error` instances qualify. -/
def isRecord : JsValue → Bool
  | .obj _ => true
  | .err _ _ _ => true
  | _ => false

/-- Property read `value[key]`: absent keys give `undefined`; on an
`Error` instance, `name` and `message` resolve to the builtin slots
before any extra own field. -/
def jsGet : JsValue → String → JsValue
  | .obj fields, key =>
      match fields.lookup key with
      | some v => v
      | none => .undefinedJs
  | .err name msg fields, key =>
      if key = "message" then .str msg
      else if key = "name" then .str name
      else
        match fields.lookup key with
        | some v => v
        | none => .undefinedJs
  | _, _ => .undefinedJs

/-- Model of `Object.prototype.hasOwnProperty.call(record, key)` (the `hasOwn`
helper in `src/protocol.ts`).  An `Error` owns its `message` slot but
inherits `name` from the prototype. -/
def jsHasOwn : JsValue → String → Bool
  | .obj fields, key => fields.any fun p => p.1 = key
  | .err _ _ fields, key => key = "message" || fields.any fun p => p.1 = key
  | _, _ => false

/-- The `String(value)` coercion, used by `formatUnknown`. -/
def jsToString : JsValue → String
  | .undefinedJs => "undefined"
  | .null => "null"
  | .boolean b => if b then "true" else "false"
  | .num n => toString n
  | .str s => s
  | .err name msg _ => if msg = "" then name else name ++ ": " ++ msg
  | .obj _ => "[object Object]"

/-- Model of `formatUnknown` from `src/protocol.ts`: an `Error` contributes its
`message`, anything else its string coercion. -/
def formatUnknown : JsValue → String
  | .err _ msg _ => msg
  | v => jsToString v

/-- Model of `extractErrorTag` from `src/protocol.ts`. -/
def extractErrorTag (error : JsValue) : String :=
  match jsGet error "_tag" with
  | .str tag => if isRecord error then tag else fallbackTag error
  | _ => fallbackTag error
where
  /-- The two fallback branches: an `Error` with a non-empty `name`
  contributes that name, anything else the constant `"RpcError"`. -/
  fallbackTag : JsValue → String
    | .err name _ _ => if name.length > 0 then name else "RpcError"
    | _ => "RpcError"

/-- The three-variant response envelope of `src/protocol.ts`.  The
optional `cause` of a defect is a `JsValue` (`undefinedJs` when absent). -/
inductive RpcResponseEnvelope where
  | success (data : JsValue)
  | failure (tag : String) (data : JsValue)
  | defect (message : String) (cause : JsValue)
  deriving Repr

/-- Model of `toDefectEnvelope` from `src/protocol.ts`. -/
def toDefectEnvelope (cause : JsValue) (pre : Option String := none) :
    RpcResponseEnvelope :=
  let causeText := formatUnknown cause
  .defect
    (match pre with
     | some p => p ++ ": " ++ causeText
     | none => causeText)
    (.str causeText)

/-- Wire form of a constructed envelope: the object literal each
variant is built as on the host side (`src/main.ts`). -/
def serializeEnvelope : RpcResponseEnvelope → JsValue
  | .success data => .obj [("type", .str "success"), ("data", data)]
  | .failure tag data =>
      .obj [("type", .str "failure"),
            ("error", .obj [("tag", .str tag), ("data", data)])]
  | .defect message cause =>
      .obj [("type", .str "defect"), ("message", .str message),
            ("cause", cause)]

/-- Model of `parseRpcResponseEnvelope` from `src/protocol.ts`: validates an
untyped value into an envelope, `none` being the invalid sentinel. -/
def parseRpcResponseEnvelope (value : JsValue) : Option RpcResponseEnvelope :=
  if !(isRecord value) then none
  else
    match jsGet value "type" with
    | .str t =>
      if t = "success" then
        if jsHasOwn value "data" then some (.success (jsGet value "data"))
        else none
      else if t = "failure" then
        if isRecord (jsGet value "error") then
          match jsGet (jsGet value "error") "tag" with
          | .str tag =>
            if jsHasOwn (jsGet value "error") "data" then
              some (.failure tag (jsGet (jsGet value "error") "data"))
            else none
          | _ => none
        else none
      else if t = "defect" then
        match jsGet value "message" with
        | .str m => some (.defect m (jsGet value "cause"))
        | _ => none
      else none
    | _ => none

/-- Modelled from the spec: the acceptance condition stated in words
for `parseEnvelope` — a plain record with a string `type`; `success`
needs a present `data` key; `failure` needs `error` to be a record
with a string `tag` and a present `data` key; `defect` needs a string
`message`; everything else is invalid. -/
def envelopeShapeValid (value : JsValue) : Bool :=
  if !(isRecord value) then false
  else
    match jsGet value "type" with
    | .str t =>
      if t = "success" then jsHasOwn value "data"
      else if t = "failure" then
        if isRecord (jsGet value "error") then
          match jsGet (jsGet value "error") "tag" with
          | .str _ => jsHasOwn (jsGet value "error") "data"
          | _ => false
        else false
      else if t = "defect" then
        match jsGet value "message" with
        | .str _ => true
        | _ => false
      else false
    | _ => false

/-- A diagnostics callback invocation (the contexts passed through
`safelyCall` in `src/main.ts` and `src/testing.ts`).  `safelyCall`
swallows observer exceptions, so an invocation is pure data here. -/
inductive DiagEvent where
  | decodeFailure (scope name : String) (payload cause : JsValue)
  | protocolError (method : String) (response cause : JsValue)
  | dispatchFailure (event : String) (payload cause : JsValue)
  | droppedEvent (event : String) (payload : JsValue) (reason : String)
      (queued dropped : Nat)
  deriving Repr

/-- The `effect` library's `Cause` tree as observed by this code:
`failureOption` scans for the first `Fail`, `dieOption` for the first
`Die`. -/
inductive RpcCause (E : Type) where
  | empty
  | fail (error : E)
  | die (defect : JsValue)
  | interrupt
  | sequential (left right : RpcCause E)
  | parallel (left right : RpcCause E)

/-- Model of `Cause.failureOption`: the first expected failure in the tree. -/
def RpcCause.failureOption {E : Type} : RpcCause E → Option E
  | .fail e => some e
  | .sequential l r => (failureOption l).orElse fun _ => failureOption r
  | .parallel l r => (failureOption l).orElse fun _ => failureOption r
  | _ => none

/-- Model of `Cause.dieOption`: the first defect in the tree. -/
def RpcCause.dieOption {E : Type} : RpcCause E → Option JsValue
  | .die d => some d
  | .sequential l r => (dieOption l).orElse fun _ => dieOption r
  | .parallel l r => (dieOption l).orElse fun _ => dieOption r
  | _ => none

/-- A `Cause` is itself a JS record (a tagged tree of plain objects):
its value as seen by `toDefectEnvelope` in the interrupted branch. -/
def RpcCause.toJs : RpcCause JsValue → JsValue
  | .empty => .obj [("_tag", .str "Empty")]
  | .fail e => .obj [("_tag", .str "Fail"), ("error", e)]
  | .die d => .obj [("_tag", .str "Die"), ("defect", d)]
  | .interrupt => .obj [("_tag", .str "Interrupt")]
  | .sequential l r =>
      .obj [("_tag", .str "Sequential"), ("left", l.toJs), ("right", r.toJs)]
  | .parallel l r =>
      .obj [("_tag", .str "Parallel"), ("left", l.toJs), ("right", r.toJs)]

/-- The `Exit` of running an implementation effect to completion. -/
inductive RpcExit (E A : Type) where
  | success (value : A)
  | failure (cause : RpcCause E)

/-- Result of one inbound call on the host: the diagnostics emitted
and either a returned envelope or an exception escaping the listener
(`Except.error`, which clause C1 asserts never happens). -/
structure HandleOutcome where
  diags : List DiagEvent
  result : Except JsValue RpcResponseEnvelope
  deriving Repr

/-- The per-method listener `handleRpcRequest` installed by
`createRpcEndpoint` (`src/main.ts`).  The request codec, the
implementation (whose synchronous throw and awaited exit are both
covered by `impl`), and the response/error codecs are oracles; every
runtime value is a `JsValue`.  `encodeFailure` is `none` for a method
declaring `NoError`. -/
def handleRpcRequest
    (methodName : String)
    (decodeInput : JsValue → Except JsValue JsValue)
    (impl : JsValue → Except JsValue (RpcExit JsValue JsValue))
    (encodeSuccess : JsValue → Except JsValue JsValue)
    (encodeFailure : Option (JsValue → Except JsValue JsValue))
    (rawPayload : JsValue) : HandleOutcome :=
  match decodeInput rawPayload with
  | .error cause =>
      { diags := [.decodeFailure "rpc-request" methodName rawPayload cause],
        result := .ok (toDefectEnvelope cause
          (some ("RPC " ++ methodName ++ " request decode failed"))) }
  | .ok input =>
    match impl input with
    | .error cause =>
        { diags := [],
          result := .ok (toDefectEnvelope cause
            (some ("RPC " ++ methodName ++ " implementation threw"))) }
    | .ok (.success value) =>
        match encodeSuccess value with
        | .ok data => { diags := [], result := .ok (.success data) }
        | .error cause =>
            { diags := [.protocolError methodName value cause],
              result := .ok (toDefectEnvelope cause
                (some ("RPC " ++ methodName ++ " success encoding failed"))) }
    | .ok (.failure cause) =>
        match cause.failureOption with
        | some failureValue =>
            match encodeFailure with
            | none =>
                { diags := [],
                  result := .ok (toDefectEnvelope failureValue
                    (some ("RPC " ++ methodName ++
                      " returned a typed failure, but method declares NoError"))) }
            | some encode =>
                match encode failureValue with
                | .ok data =>
                    { diags := [],
                      result := .ok (.failure (extractErrorTag failureValue) data) }
                | .error encCause =>
                    { diags := [.protocolError methodName failureValue encCause],
                      result := .ok (toDefectEnvelope encCause
                        (some ("RPC " ++ methodName ++ " failure encoding failed"))) }
        | none =>
            match cause.dieOption with
            | some defectValue =>
                { diags := [],
                  result := .ok (toDefectEnvelope defectValue
                    (some ("RPC " ++ methodName ++ " defect"))) }
            | none =>
                { diags := [],
                  result := .ok (toDefectEnvelope cause.toJs
                    (some ("RPC " ++ methodName ++ " interrupted"))) }

/-- Error channel of the client-side caller: either a decoded typed
domain error or an `RpcDefectError` with its stable `code`
discriminant (`src/testing.ts`). -/
inductive ClientError where
  | domain (value : JsValue)
  | defect (code message : String) (cause : JsValue)
  deriving Repr

/-- Model of `decodeEnvelope` of `createRpcClient` (`src/testing.ts`): the
three-way classification of a parsed envelope.  `noError` is
`isNoErrorSchema(method.err)`; the success and error codecs are
oracles. -/
def decodeEnvelope
    (methodName : String)
    (noError : Bool)
    (decodeSuccess : JsValue → Except JsValue JsValue)
    (decodeError : JsValue → Except JsValue JsValue)
    (envelope : RpcResponseEnvelope) :
    List DiagEvent × Except ClientError JsValue :=
  match envelope with
  | .success data =>
      match decodeSuccess data with
      | .ok value => ([], .ok value)
      | .error cause =>
          ([.decodeFailure "rpc-response" methodName data cause],
           .error (.defect "success_payload_decoding_failed"
             ("RPC " ++ methodName ++ " success payload decoding failed: " ++
               formatUnknown cause)
             cause))
  | .failure tag data =>
      if noError then
        ([], .error (.defect "noerror_contract_violation"
          ("RPC " ++ methodName ++
            " received a failure for a method that declares NoError")
          (.obj [("tag", .str tag), ("data", data)])))
      else
        match decodeError data with
        | .ok decodedError => ([], .error (.domain decodedError))
        | .error cause =>
            ([.decodeFailure "rpc-response" methodName
                (.obj [("tag", .str tag), ("data", data)]) cause],
             .error (.defect "failure_payload_decoding_failed"
               ("RPC " ++ methodName ++ " failure payload decoding failed: " ++
                 formatUnknown cause)
               cause))
  | .defect message cause =>
      ([], .error (.defect "remote_defect" message cause))

/-- A queued outbound event (`QueueItem` in `src/main.ts`). -/
structure QueueItem where
  eventName : String
  payload : JsValue
  deriving Repr

/-- The mutable state owned by `createEventPublisher`
(`src/main.ts`): the FIFO queue, the drop counter and the lifecycle
and drain-scheduling flags. -/
structure PublisherState where
  queue : List QueueItem
  dropped : Nat
  running : Bool
  disposed : Bool
  draining : Bool
  drainScheduled : Bool
  deriving Repr

/-- The freshly constructed publisher state. -/
def initialPublisherState : PublisherState :=
  { queue := [], dropped := 0, running := false, disposed := false,
    draining := false, drainScheduled := false }

/-- Model of `scheduleDrain` (`src/main.ts`): arms the pending-microtask flag
unless stopped, disposed, draining or already armed.  The microtask
itself is modelled separately by `drain`. -/
def scheduleDrain (s : PublisherState) : PublisherState :=
  if !s.running || s.disposed || s.draining || s.drainScheduled then s
  else { s with drainScheduled := true }

/-- Model of `enqueue` (`src/main.ts`): drop-oldest admission.  At capacity the
oldest item is shifted off, the drop counter incremented and a
`queue_full` dropped-event diagnostic fired with the post-shift queue
length, then the new item is appended and a drain is scheduled. -/
def enqueue (maxQueueSize : Nat) (item : QueueItem) (s : PublisherState) :
    PublisherState × List DiagEvent :=
  if s.queue.length ≥ maxQueueSize then
    match s.queue with
    | evicted :: rest =>
        let dropped := s.dropped + 1
        (scheduleDrain { s with queue := rest ++ [item], dropped := dropped },
         [.droppedEvent evicted.eventName evicted.payload "queue_full"
            rest.length dropped])
    | [] =>
        (scheduleDrain { s with queue := [item], dropped := s.dropped + 1 }, [])
  else (scheduleDrain { s with queue := s.queue ++ [item] }, [])

/-- Model of `publish` (`src/main.ts`): a no-op when disposed, otherwise an
enqueue. -/
def publish (maxQueueSize : Nat) (item : QueueItem) (s : PublisherState) :
    PublisherState × List DiagEvent :=
  if s.disposed then (s, []) else enqueue maxQueueSize item s

/-- A sequence of `publish` calls, collecting the diagnostics fired. -/
def publishAll (maxQueueSize : Nat) :
    List QueueItem → PublisherState → PublisherState × List DiagEvent
  | [], s => (s, [])
  | item :: rest, s =>
      let r := publish maxQueueSize item s
      let r' := publishAll maxQueueSize rest r.1
      (r'.1, r.2 ++ r'.2)

/-- The renderer window as seen by the publisher
(`RendererWindowLike` in `src/types.ts`): a destroyed flag and a
`send` that may throw. -/
structure WindowModel where
  isDestroyed : Bool
  send : String → JsValue → Except JsValue Unit

/-- External collaborators of one publisher: the event-payload
encoder, the window accessor and the event channel name builder. -/
structure PublisherEnv where
  encodeEvent : String → JsValue → Except JsValue JsValue
  getWindow : Option WindowModel
  eventChannel : String → String

/-- Model of `dispatch` (`src/main.ts`): encode the payload (failure drops the
item with diagnostics), fetch the window (missing or destroyed target
silently discards the item), then send (a throw fires only a
dispatch-failure diagnostic).  The third component records successful
`webContents.send` calls. -/
def dispatch (env : PublisherEnv) (item : QueueItem) (s : PublisherState) :
    PublisherState × List DiagEvent × List (String × JsValue) :=
  match env.encodeEvent item.eventName item.payload with
  | .error cause =>
      let dropped := s.dropped + 1
      ({ s with dropped := dropped },
       [.decodeFailure "event-payload" item.eventName item.payload cause,
        .droppedEvent item.eventName item.payload "encoding_failed"
          s.queue.length dropped],
       [])
  | .ok encoded =>
      match env.getWindow with
      | none => (s, [], [])
      | some w =>
        if w.isDestroyed then (s, [], [])
        else
          match w.send (env.eventChannel item.eventName) encoded with
          | .ok _ => (s, [], [(env.eventChannel item.eventName, encoded)])
          | .error cause =>
              (s, [.dispatchFailure item.eventName item.payload cause], [])

/-- The body of the `drain` while-loop: shift the oldest item and
dispatch it until the queue is empty.  `dispatch` never changes
`running` or `disposed`, so the loop condition only drains the queue. -/
def drainItems (env : PublisherEnv) :
    List QueueItem → PublisherState →
    PublisherState × List DiagEvent × List (String × JsValue)
  | [], s => (s, [], [])
  | item :: rest, s =>
      let r := dispatch env item { s with queue := rest }
      let r' := drainItems env rest r.1
      (r'.1, r.2.1 ++ r'.2.1, r.2.2 ++ r'.2.2)

/-- Model of `drain` (`src/main.ts`): one synchronous drain pass.  It is a
no-op unless running, not disposed and not already draining; the pass
empties the queue and clears the draining flag. -/
def drain (env : PublisherEnv) (s : PublisherState) :
    PublisherState × List DiagEvent × List (String × JsValue) :=
  if !s.running || s.disposed || s.draining then (s, [], [])
  else
    let r := drainItems env s.queue { s with draining := true }
    ({ r.1 with draining := false }, r.2.1, r.2.2)

/-- Publisher `start` (`src/main.ts`): throws when disposed, no-op
when running, otherwise sets running and schedules a drain. -/
def publisherStart (s : PublisherState) : PublisherState × Option String :=
  if s.disposed then (s, some "Event publisher has already been disposed.")
  else if s.running then (s, none)
  else (scheduleDrain { s with running := true }, none)

/-- Publisher `stop` (`src/main.ts`): clears the running flag only;
the queue and the counters survive. -/
def publisherStop (s : PublisherState) : PublisherState :=
  if !s.running then s else { s with running := false }

/-- Publisher `dispose` (`src/main.ts`): stop, clear the queue, mark
disposed; a no-op when already disposed. -/
def publisherDispose (s : PublisherState) : PublisherState :=
  if s.disposed then s
  else { publisherStop s with queue := [], disposed := true }

/-- Publisher `isRunning` (`src/main.ts`). -/
def publisherIsRunning (s : PublisherState) : Bool := s.running

/-- Publisher `stats` (`src/main.ts`). -/
def publisherStats (s : PublisherState) : Nat × Nat :=
  (s.queue.length, s.dropped)

/-- A JavaScript `number` as far as `clampQueueSize` observes it:
finite doubles are rationals, the rest is the three non-finite
values. -/
inductive JsNumber where
  | finite (q : ℚ)
  | posInf
  | negInf
  | nan
  deriving Repr

/-- Model of `clampQueueSize` (`src/main.ts`): omitted means 1000; a value
that is not finite or is below 1 throws; anything else is floored. -/
def clampQueueSize : Option JsNumber → Except String Int
  | none => .ok 1000
  | some (.finite q) =>
      if q < 1 then
        .error "Event publisher maxQueueSize must be a positive finite number."
      else .ok ⌊q⌋
  | some _ =>
      .error "Event publisher maxQueueSize must be a positive finite number."

/-- The construction-time part of `createEventPublisher`
(`src/main.ts`): resolving `maxQueueSize` is the only fallible step;
on success the publisher starts with the fresh state. -/
def createEventPublisherInit (maxQueueSize : Option JsNumber) :
    Except String (Int × PublisherState) :=
  (clampQueueSize maxQueueSize).map fun k => (k, initialPublisherState)

/-- The mutable state owned by `createRpcEndpoint` (`src/main.ts`)
together with the externally visible set of registered channels of its
`IpcMainLike` registrar. -/
structure EndpointState where
  registered : List String
  running : Bool
  disposed : Bool
  deriving Repr

/-- The freshly constructed endpoint state over an empty registrar. -/
def initialEndpointState : EndpointState :=
  { registered := [], running := false, disposed := false }

/-- The `for (const [channel, listener] of listeners) ipc.handle(...)`
loop in endpoint `start`: `handleFails c = some e` models
`ipc.handle(c, ...)` throwing `e`, which aborts the loop at once. -/
def registerChannels (handleFails : String → Option String) :
    List String → List String → List String × Option String
  | [], registered => (registered, none)
  | c :: rest, registered =>
      match handleFails c with
      | some e => (registered, some e)
      | none => registerChannels handleFails rest (registered ++ [c])

/-- Endpoint `start` (`src/main.ts`): throws when disposed, no-op
when running, otherwise registers every channel in order and only then
sets the running flag.  A registration throw propagates directly —
there is no rollback of the channels registered so far. -/
def endpointStart (channels : List String)
    (handleFails : String → Option String) (s : EndpointState) :
    EndpointState × Option String :=
  if s.disposed then (s, some "RPC endpoint has already been disposed.")
  else if s.running then (s, none)
  else
    match registerChannels handleFails channels s.registered with
    | (registered, some e) => ({ s with registered := registered }, some e)
    | (registered, none) =>
        ({ s with registered := registered, running := true }, none)

/-- The `for (const channel of listeners.keys()) ipc.removeHandler(...)`
loop in endpoint `stop`: a throw from `removeHandler` aborts the loop
at once, leaving the later channels untouched. -/
def removeChannels (removeFails : String → Option String) :
    List String → List String → List String × Option String
  | [], registered => (registered, none)
  | c :: rest, registered =>
      match removeFails c with
      | some e => (registered, some e)
      | none => removeChannels removeFails rest (registered.erase c)

/-- Endpoint `stop` (`src/main.ts`): no-op unless running; removes
every channel in order and clears the running flag only when the loop
finishes — a throw leaves the endpoint still running. -/
def endpointStop (channels : List String)
    (removeFails : String → Option String) (s : EndpointState) :
    EndpointState × Option String :=
  if !s.running then (s, none)
  else
    match removeChannels removeFails channels s.registered with
    | (registered, some e) => ({ s with registered := registered }, some e)
    | (registered, none) =>
        ({ s with registered := registered, running := false }, none)

/-- Endpoint `dispose` (`src/main.ts`): no-op when disposed,
otherwise `stop()` followed by marking disposed — a throwing stop
leaves the endpoint undisposed. -/
def endpointDispose (channels : List String)
    (removeFails : String → Option String) (s : EndpointState) :
    EndpointState × Option String :=
  if s.disposed then (s, none)
  else
    match endpointStop channels removeFails s with
    | (s', some e) => (s', some e)
    | (s', none) => ({ s' with disposed := true }, none)

/-- Endpoint `isRunning` (`src/main.ts`). -/
def endpointIsRunning (s : EndpointState) : Bool := s.running

/-- C2: `parseRpcResponseEnvelope` is a total classifier — every
constructed envelope round-trips through its wire form unchanged, and
an input is rejected with the invalid sentinel (`none`, never a
throw) exactly when it violates the spec's shape conditions
(non-record, missing or non-string or unknown `type`, `success`
without a `data` key, `failure` whose `error` is not a record with a
string `tag` and a present `data` key, `defect` without a string
`message`). -/
theorem parseEnvelope_total_classifier :
    (∀ e : RpcResponseEnvelope,
        parseRpcResponseEnvelope (serializeEnvelope e) = some e) ∧
    (∀ raw : JsValue,
        parseRpcResponseEnvelope raw = none ↔ envelopeShapeValid raw = false) := by
  constructor
  · intro e
    cases e <;> rfl
  · intro raw
    unfold parseRpcResponseEnvelope envelopeShapeValid
    cases hrec : isRecord raw
    · simp
    · simp only [Bool.not_true, Bool.false_eq_true, if_false]
      cases ht : jsGet raw "type" <;> try simp
      case str t =>
        by_cases hts : t = "success"
        · cases hdata : jsHasOwn raw "data" <;> simp [hts, hdata]
        · by_cases htf : t = "failure"
          · cases herr : isRecord (jsGet raw "error")
            · simp [hts, htf, herr]
            · cases htag : jsGet (jsGet raw "error") "tag" <;>
                simp [hts, htf, herr, htag]
          · by_cases htd : t = "defect"
            · cases hm : jsGet raw "message" <;> simp [hts, htf, htd, hm]
            · simp [hts, htf, htd]

/-- C10: on any record carrying a valid variant's required fields,
`parseRpcResponseEnvelope` accepts the input regardless of what other
keys the record (or its `error` sub-record) carries, and the result is
built from the prescribed fields alone — extra keys are neither
rejected nor carried into the freshly built envelope. -/
theorem parseEnvelope_ignores_extra_keys (raw : JsValue)
    (hrec : isRecord raw = true) :
    (jsGet raw "type" = .str "success" → jsHasOwn raw "data" = true →
        parseRpcResponseEnvelope raw =
          some (.success (jsGet raw "data"))) ∧
    (∀ tag, jsGet raw "type" = .str "failure" →
        isRecord (jsGet raw "error") = true →
        jsGet (jsGet raw "error") "tag" = .str tag →
        jsHasOwn (jsGet raw "error") "data" = true →
        parseRpcResponseEnvelope raw =
          some (.failure tag (jsGet (jsGet raw "error") "data"))) ∧
    (∀ m, jsGet raw "type" = .str "defect" → jsGet raw "message" = .str m →
        parseRpcResponseEnvelope raw =
          some (.defect m (jsGet raw "cause"))) := by
  refine ⟨fun ht hd => ?_, fun tag ht herr htag hd => ?_, fun m ht hm => ?_⟩ <;>
    unfold parseRpcResponseEnvelope <;>
    simp [hrec, ht]
  · simp [hd]
  · simp [herr, htag, hd]
  · simp [hm]

/-- C10 witness: a success record and a failure record carrying extra
keys (also inside the `error` sub-record) both parse, and the results
hold only the prescribed fields. -/
theorem parseEnvelope_ignores_extra_keys_witness :
    parseRpcResponseEnvelope
        (.obj [("type", .str "success"), ("data", .num 1),
               ("extra", .str "junk")]) =
      some (.success (.num 1)) ∧
    parseRpcResponseEnvelope
        (.obj [("type", .str "failure"), ("unrelated", .null),
               ("error", .obj [("tag", .str "E"), ("data", .num 2),
                               ("stack", .str "s")])]) =
      some (.failure "E" (.num 2)) ∧
    parseRpcResponseEnvelope
        (.obj [("type", .str "defect"), ("message", .str "boom"),
               ("pid", .num 7)]) =
      some (.defect "boom" .undefinedJs) := by
  refine ⟨?_, ?_, ?_⟩
  · exact (parseEnvelope_ignores_extra_keys
      (.obj [("type", .str "success"), ("data", .num 1),
             ("extra", .str "junk")]) rfl).1 rfl rfl
  · exact (parseEnvelope_ignores_extra_keys
      (.obj [("type", .str "failure"), ("unrelated", .null),
             ("error", .obj [("tag", .str "E"), ("data", .num 2),
                             ("stack", .str "s")])]) rfl).2.1 "E" rfl rfl rfl rfl
  · exact (parseEnvelope_ignores_extra_keys
      (.obj [("type", .str "defect"), ("message", .str "boom"),
             ("pid", .num 7)]) rfl).2.2 "boom" rfl rfl

/-- C1: the per-method listener installed by `createRpcEndpoint`
always returns an envelope — request decode failure, a synchronous
implementation throw, every asynchronous exit (success, typed
failure, defect, interruption) and success- or failure-encoding
failure all terminate in a returned `Success`, `Failure` or `Defect`
envelope; no exception escapes to the transport layer
(`Except.error` is never the result). -/
theorem handleRpcRequest_never_throws
    (methodName : String)
    (decodeInput : JsValue → Except JsValue JsValue)
    (impl : JsValue → Except JsValue (RpcExit JsValue JsValue))
    (encodeSuccess : JsValue → Except JsValue JsValue)
    (encodeFailure : Option (JsValue → Except JsValue JsValue))
    (rawPayload : JsValue) :
    ∃ envelope : RpcResponseEnvelope,
      (handleRpcRequest methodName decodeInput impl encodeSuccess
        encodeFailure rawPayload).result = Except.ok envelope := by
  unfold handleRpcRequest
  repeat' split
  all_goals exact ⟨_, rfl⟩

/-- C3: on a method declaring `NoError`, a `Failure` envelope is
classified by `decodeEnvelope` as a defect-class `RpcDefectError`
(code `noerror_contract_violation`) — the domain-error path is never
taken and the result does not depend on the error codec, which is
therefore never used to decode the failure payload. -/
theorem decodeEnvelope_noError_failure_is_defect
    (methodName : String)
    (decodeSuccess decodeError : JsValue → Except JsValue JsValue)
    (tag : String) (data : JsValue) :
    decodeEnvelope methodName true decodeSuccess decodeError
        (.failure tag data) =
      ([], .error (.defect "noerror_contract_violation"
        ("RPC " ++ methodName ++
          " received a failure for a method that declares NoError")
        (.obj [("tag", .str tag), ("data", data)]))) ∧
    (∀ otherDecodeError : JsValue → Except JsValue JsValue,
        decodeEnvelope methodName true decodeSuccess decodeError
            (.failure tag data) =
          decodeEnvelope methodName true decodeSuccess otherDecodeError
            (.failure tag data)) :=
  ⟨rfl, fun _ => rfl⟩

/-- The diagnostics a run of queue-full evictions fires: one
`queue_full` dropped-event per evicted item, in eviction order, each
carrying the post-eviction queue length (capacity minus one) and the
running drop count. -/
def expectedQueueFullDiags (maxQueueSize : Nat) :
    List QueueItem → Nat → List DiagEvent
  | [], _ => []
  | item :: rest, dropped =>
      .droppedEvent item.eventName item.payload "queue_full"
        (maxQueueSize - 1) (dropped + 1) ::
      expectedQueueFullDiags maxQueueSize rest (dropped + 1)

theorem scheduleDrain_queue (s : PublisherState) :
    (scheduleDrain s).queue = s.queue := by
  unfold scheduleDrain; split <;> rfl

theorem scheduleDrain_dropped (s : PublisherState) :
    (scheduleDrain s).dropped = s.dropped := by
  unfold scheduleDrain; split <;> rfl

theorem scheduleDrain_disposed (s : PublisherState) :
    (scheduleDrain s).disposed = s.disposed := by
  unfold scheduleDrain; split <;> rfl

theorem publishAll_drop_oldest_general (K : Nat) (hK : 1 ≤ K) :
    ∀ (items : List QueueItem) (s : PublisherState),
      s.disposed = false → s.queue.length ≤ K →
      (publishAll K items s).1.queue =
          (s.queue ++ items).drop (s.queue.length + items.length - K) ∧
      (publishAll K items s).1.dropped =
          s.dropped + (s.queue.length + items.length - K) ∧
      (publishAll K items s).2 =
          expectedQueueFullDiags K
            ((s.queue ++ items).take (s.queue.length + items.length - K))
            s.dropped := by
  intro items
  induction items with
  | nil =>
      intro s hdisp hlen
      simp only [publishAll, List.length_nil, Nat.add_zero, List.append_nil]
      rw [Nat.sub_eq_zero_of_le hlen]
      simp [expectedQueueFullDiags]
  | cons item rest ih =>
      intro s hdisp hlen
      simp only [publishAll, publish, hdisp, Bool.false_eq_true, if_false,
        enqueue, ge_iff_le]
      by_cases hfull : K ≤ s.queue.length
      · have hlenK : s.queue.length = K := Nat.le_antisymm hlen hfull
        rw [if_pos hfull]
        cases hq : s.queue with
        | nil => rw [hq] at hlenK; simp at hlenK; omega
        | cons evicted restQ =>
          have hrest : restQ.length + 1 = K := by
            rw [hq] at hlenK; simpa using hlenK
          obtain ⟨ihq, ihd, ihdiag⟩ :=
            ih (scheduleDrain
                { s with queue := restQ ++ [item], dropped := s.dropped + 1 })
              (by rw [scheduleDrain_disposed]; exact hdisp)
              (by rw [scheduleDrain_queue]; simp; omega)
          simp only [scheduleDrain_queue, scheduleDrain_dropped, hdisp] at ihq ihd ihdiag
          have e1 : (restQ ++ [item]).length + rest.length - K = rest.length := by
            simp; omega
          have e2 : s.queue.length + (item :: rest).length - K =
              rest.length + 1 := by
            rw [hq]; simp; omega
          rw [hq] at e2
          refine ⟨?_, ?_, ?_⟩
          · dsimp only
            rw [ihq, e1, e2]
            simp only [List.append_assoc, List.singleton_append,
              List.cons_append, List.nil_append, List.drop_succ_cons]
          · dsimp only
            rw [ihd, e1, e2]
            omega
          · dsimp only
            rw [ihdiag, e1, e2]
            simp only [List.append_assoc, List.singleton_append,
              List.cons_append, List.nil_append, List.take_succ_cons,
              expectedQueueFullDiags]
            have hq1 : restQ.length = K - 1 := by omega
            rw [hq1]
            rfl
      · rw [if_neg hfull]
        obtain ⟨ihq, ihd, ihdiag⟩ :=
          ih (scheduleDrain { s with queue := s.queue ++ [item] })
            (by rw [scheduleDrain_disposed]; exact hdisp)
            (by rw [scheduleDrain_queue]; simp; omega)
        simp only [scheduleDrain_queue, scheduleDrain_dropped, hdisp] at ihq ihd ihdiag
        have e3 : (s.queue ++ [item]).length + rest.length - K =
            s.queue.length + (item :: rest).length - K := by
          simp; omega
        refine ⟨?_, ?_, ?_⟩
        · dsimp only
          rw [ihq, e3]
          simp only [List.append_assoc, List.singleton_append,
            List.cons_append, List.nil_append]
        · dsimp only
          rw [ihd, e3]
        · dsimp only
          rw [ihdiag, e3]
          simp only [List.append_assoc, List.singleton_append,
            List.cons_append, List.nil_append]

/-- C4: publishing `N > K` items into a publisher of capacity `K`
with no intervening drain leaves exactly the `K` most recently
published items queued in publish order, counts `N - K` drops, and
fires one `queue_full` dropped-event diagnostic per eviction — each
naming the evicted (then-oldest) item, the post-eviction queue length
`K - 1` and the running drop count. -/
theorem publisher_capacity_drop_oldest (K : Nat) (items : List QueueItem)
    (hK : 1 ≤ K) (hN : K < items.length) :
    (publishAll K items initialPublisherState).1.queue =
        items.drop (items.length - K) ∧
    (publishAll K items initialPublisherState).1.queue.length = K ∧
    (publishAll K items initialPublisherState).1.dropped =
        items.length - K ∧
    (publishAll K items initialPublisherState).2 =
        expectedQueueFullDiags K (items.take (items.length - K)) 0 := by
  obtain ⟨hq, hd, hdiag⟩ := publishAll_drop_oldest_general K hK items
    initialPublisherState rfl (by simp [initialPublisherState])
  simp only [initialPublisherState, List.nil_append, List.length_nil,
    Nat.zero_add] at hq hd hdiag ⊢
  refine ⟨hq, ?_, hd, hdiag⟩
  rw [hq]
  simp only [List.length_drop]
  omega

/-- C4 witness: capacity 2, three publishes — the first item is
evicted with a `queue_full` diagnostic and the last two remain. -/
theorem publisher_capacity_drop_oldest_witness :
    1 ≤ 2 ∧
    2 < ([⟨"a", .num 1⟩, ⟨"b", .num 2⟩, ⟨"c", .num 3⟩] :
          List QueueItem).length ∧
    ((publishAll 2 [⟨"a", .num 1⟩, ⟨"b", .num 2⟩, ⟨"c", .num 3⟩]
          initialPublisherState).1.queue =
        ([⟨"a", .num 1⟩, ⟨"b", .num 2⟩, ⟨"c", .num 3⟩] :
          List QueueItem).drop
          (([⟨"a", .num 1⟩, ⟨"b", .num 2⟩, ⟨"c", .num 3⟩] :
              List QueueItem).length - 2) ∧
      (publishAll 2 [⟨"a", .num 1⟩, ⟨"b", .num 2⟩, ⟨"c", .num 3⟩]
          initialPublisherState).1.queue.length = 2 ∧
      (publishAll 2 [⟨"a", .num 1⟩, ⟨"b", .num 2⟩, ⟨"c", .num 3⟩]
          initialPublisherState).1.dropped =
        ([⟨"a", .num 1⟩, ⟨"b", .num 2⟩, ⟨"c", .num 3⟩] :
          List QueueItem).length - 2 ∧
      (publishAll 2 [⟨"a", .num 1⟩, ⟨"b", .num 2⟩, ⟨"c", .num 3⟩]
          initialPublisherState).2 =
        expectedQueueFullDiags 2
          (([⟨"a", .num 1⟩, ⟨"b", .num 2⟩, ⟨"c", .num 3⟩] :
              List QueueItem).take
            (([⟨"a", .num 1⟩, ⟨"b", .num 2⟩, ⟨"c", .num 3⟩] :
                List QueueItem).length - 2)) 0) :=
  ⟨by decide, by decide,
   publisher_capacity_drop_oldest 2
     [⟨"a", .num 1⟩, ⟨"b", .num 2⟩, ⟨"c", .num 3⟩] (by decide) (by decide)⟩

theorem registerChannels_spec (fails : String → Option String) :
    ∀ (channels reg : List String),
      registerChannels fails channels reg =
        (reg ++ channels.takeWhile (fun c => (fails c).isNone),
         (channels.find? fun c => (fails c).isSome).bind fails) := by
  intro channels
  induction channels with
  | nil => intro reg; simp [registerChannels]
  | cons c rest ih =>
      intro reg
      simp only [registerChannels]
      cases hc : fails c with
      | some e =>
          simp [List.takeWhile_cons, List.find?_cons, hc]
      | none =>
          simp [List.takeWhile_cons, List.find?_cons, hc, ih]

theorem removeChannels_spec (fails : String → Option String) :
    ∀ (channels reg : List String),
      removeChannels fails channels reg =
        ((channels.takeWhile fun c => (fails c).isNone).foldl
           (fun r c => r.erase c) reg,
         (channels.find? fun c => (fails c).isSome).bind fails) := by
  intro channels
  induction channels with
  | nil => intro reg; simp [removeChannels]
  | cons c rest ih =>
      intro reg
      simp only [removeChannels]
      cases hc : fails c with
      | some e =>
          simp [List.takeWhile_cons, List.find?_cons, hc]
      | none =>
          simp [List.takeWhile_cons, List.find?_cons, hc, ih]

/-- C5: evaluating `start()` at the failing input of the repository's
own rollback test (registration of `rpc/Fail` throwing after
`rpc/Add` succeeded) — the error is re-raised and the endpoint stays
`Stopped`, but `rpc/Add` remains registered: the code performs no
rollback, although the test expects no handler from the failed
attempt to remain. -/
theorem endpointStart_missing_rollback_at_failing_input :
    ((endpointStart ["rpc/Add", "rpc/Fail"]
        (fun c => if c = "rpc/Fail" then some "duplicate channel" else none)
        initialEndpointState).1.registered = ["rpc/Add"]) ∧
    ((endpointStart ["rpc/Add", "rpc/Fail"]
        (fun c => if c = "rpc/Fail" then some "duplicate channel" else none)
        initialEndpointState).2 = some "duplicate channel") ∧
    (endpointIsRunning (endpointStart ["rpc/Add", "rpc/Fail"]
        (fun c => if c = "rpc/Fail" then some "duplicate channel" else none)
        initialEndpointState).1 = false) ∧
    (["rpc/Add"] : List String) ≠ [] :=
  ⟨rfl, rfl, rfl, by simp⟩

/-- General behavior of the modeled `start()` on a failed
registration: the error is re-raised, the endpoint stays `Stopped`,
and exactly the prefix of channels before the first failing one
remains registered — no rollback occurs. -/
theorem endpointStart_partial_failure_stays_stopped
    (channels : List String) (fails : String → Option String)
    (s : EndpointState) (hd : s.disposed = false) (hr : s.running = false)
    (hfail : ∃ c ∈ channels, (fails c).isSome = true) :
    ((endpointStart channels fails s).2.isSome = true) ∧
    ((endpointStart channels fails s).1.running = false) ∧
    (endpointIsRunning (endpointStart channels fails s).1 = false) ∧
    ((endpointStart channels fails s).1.registered =
      s.registered ++ channels.takeWhile fun c => (fails c).isNone) := by
  obtain ⟨c, hcmem, hcs⟩ := hfail
  have hfind : (channels.find? fun c => (fails c).isSome).isSome = true := by
    rw [List.find?_isSome]
    exact ⟨c, hcmem, hcs⟩
  obtain ⟨c0, hc0⟩ := Option.isSome_iff_exists.mp hfind
  have hc0s : (fails c0).isSome = true := by
    have := List.find?_some hc0
    simpa using this
  obtain ⟨e, he⟩ := Option.isSome_iff_exists.mp hc0s
  unfold endpointStart
  rw [hd, hr]
  simp only [Bool.false_eq_true, if_false, registerChannels_spec, hc0,
    Option.some_bind, he, endpointIsRunning]
  simp [hr]

/-- C7: evaluating `stop()` at the failing input of the repository's
own best-effort test (removal of the first channel `rpc/Add`
throwing) — the loop aborts at once: `rpc/Fail` is never attempted,
both channels stay registered, and the endpoint is still `Running`,
although the test expects `isRunning()` false and every channel
attempted. -/
theorem endpointStop_abort_at_failing_input :
    ((endpointStop ["rpc/Add", "rpc/Fail"]
        (fun c => if c = "rpc/Add" then some "remove failed for rpc/Add"
                  else none)
        { registered := ["rpc/Add", "rpc/Fail"], running := true,
          disposed := false }).1.running = true) ∧
    (endpointIsRunning (endpointStop ["rpc/Add", "rpc/Fail"]
        (fun c => if c = "rpc/Add" then some "remove failed for rpc/Add"
                  else none)
        { registered := ["rpc/Add", "rpc/Fail"], running := true,
          disposed := false }).1 = true) ∧
    ((endpointStop ["rpc/Add", "rpc/Fail"]
        (fun c => if c = "rpc/Add" then some "remove failed for rpc/Add"
                  else none)
        { registered := ["rpc/Add", "rpc/Fail"], running := true,
          disposed := false }).1.registered = ["rpc/Add", "rpc/Fail"]) ∧
    ((endpointStop ["rpc/Add", "rpc/Fail"]
        (fun c => if c = "rpc/Add" then some "remove failed for rpc/Add"
                  else none)
        { registered := ["rpc/Add", "rpc/Fail"], running := true,
          disposed := false }).2 = some "remove failed for rpc/Add") :=
  ⟨rfl, rfl, rfl, rfl⟩

/-- General behavior of the modeled `stop()` on a failed
unregistration: the loop aborts at the first failing channel — only
the channels before it are unregistered, the error propagates
immediately, and the endpoint remains `Running`. -/
theorem endpointStop_abort_on_failure
    (channels : List String) (fails : String → Option String)
    (s : EndpointState) (hr : s.running = true)
    (hfail : ∃ c ∈ channels, (fails c).isSome = true) :
    ((endpointStop channels fails s).2.isSome = true) ∧
    ((endpointStop channels fails s).1.running = true) ∧
    (endpointIsRunning (endpointStop channels fails s).1 = true) ∧
    ((endpointStop channels fails s).1.registered =
      (channels.takeWhile fun c => (fails c).isNone).foldl
        (fun r c => r.erase c) s.registered) := by
  obtain ⟨c, hcmem, hcs⟩ := hfail
  have hfind : (channels.find? fun c => (fails c).isSome).isSome = true := by
    rw [List.find?_isSome]
    exact ⟨c, hcmem, hcs⟩
  obtain ⟨c0, hc0⟩ := Option.isSome_iff_exists.mp hfind
  have hc0s : (fails c0).isSome = true := by
    have := List.find?_some hc0
    simpa using this
  obtain ⟨e, he⟩ := Option.isSome_iff_exists.mp hc0s
  unfold endpointStop
  rw [hr]
  simp only [Bool.not_true, Bool.false_eq_true, if_false,
    removeChannels_spec, hc0, Option.some_bind, he, endpointIsRunning]
  simp [hr]

/-- C8: lifecycle discipline of both components — `stop()` when
already stopped and `dispose()` when already disposed are exact
no-ops; every `start()` after `dispose()` fails with the
already-disposed error and leaves the state unchanged (so `Disposed`
is terminal: the only transition into `Running` always fails there);
a publisher `dispose()` always ends disposed; and `isRunning()`
returns exactly the running flag of the current state. -/
theorem lifecycle_idempotent_and_disposed_terminal :
    (∀ (ch : List String) (f : String → Option String) (s : EndpointState),
        s.running = false → endpointStop ch f s = (s, none)) ∧
    (∀ (ch : List String) (f : String → Option String) (s : EndpointState),
        s.disposed = true → endpointDispose ch f s = (s, none)) ∧
    (∀ (ch : List String) (f : String → Option String) (s : EndpointState),
        s.disposed = true →
        endpointStart ch f s =
          (s, some "RPC endpoint has already been disposed.")) ∧
    (∀ s : EndpointState, endpointIsRunning s = s.running) ∧
    (∀ s : PublisherState, publisherStop (publisherStop s) = publisherStop s) ∧
    (∀ s : PublisherState,
        publisherDispose (publisherDispose s) = publisherDispose s) ∧
    (∀ s : PublisherState, (publisherDispose s).disposed = true ∧
        (publisherDispose s).running = false ∨
        (publisherDispose s) = s ∧ s.disposed = true) ∧
    (∀ s : PublisherState, s.disposed = true →
        publisherStart s =
          (s, some "Event publisher has already been disposed.")) ∧
    (∀ s : PublisherState, publisherIsRunning s = s.running) := by
  refine ⟨?_, ?_, ?_, fun _ => rfl, ?_, ?_, ?_, ?_, fun _ => rfl⟩
  · intro ch f s hr
    unfold endpointStop
    rw [hr]
    rfl
  · intro ch f s hd
    unfold endpointDispose
    rw [hd]
    rfl
  · intro ch f s hd
    unfold endpointStart
    rw [hd]
    rfl
  · intro s
    unfold publisherStop
    cases hr : s.running <;> simp [hr]
  · intro s
    unfold publisherDispose publisherStop
    cases hd : s.disposed <;> cases hr : s.running <;> simp [hd, hr]
  · intro s
    unfold publisherDispose publisherStop
    cases hd : s.disposed
    · left
      cases hr : s.running <;> simp [hd, hr]
    · right
      simp [hd]
  · intro s hd
    unfold publisherStart
    rw [hd]
    rfl

/-- C8 witness: concrete lifecycle runs — a stopped endpoint stays
unchanged under `stop()`, disposed components reject `start()`, and a
double publisher dispose equals a single one. -/
theorem lifecycle_idempotent_witness :
    (initialEndpointState.running = false ∧
      endpointStop ["rpc/Add"] (fun _ => none) initialEndpointState =
        (initialEndpointState, none)) ∧
    (({ registered := [], running := false, disposed := true } :
        EndpointState).disposed = true ∧
      endpointStart ["rpc/Add"] (fun _ => none)
          { registered := [], running := false, disposed := true } =
        ({ registered := [], running := false, disposed := true },
         some "RPC endpoint has already been disposed.")) ∧
    (publisherDispose (publisherDispose initialPublisherState) =
      publisherDispose initialPublisherState) ∧
    ((publisherDispose initialPublisherState).disposed = true →
      publisherStart (publisherDispose initialPublisherState) =
        (publisherDispose initialPublisherState,
         some "Event publisher has already been disposed.")) :=
  ⟨⟨rfl, lifecycle_idempotent_and_disposed_terminal.1 ["rpc/Add"]
      (fun _ => none) initialEndpointState rfl⟩,
   ⟨rfl, lifecycle_idempotent_and_disposed_terminal.2.2.1 ["rpc/Add"]
      (fun _ => none) { registered := [], running := false, disposed := true }
      rfl⟩,
   lifecycle_idempotent_and_disposed_terminal.2.2.2.2.2.1
     initialPublisherState,
   fun h => lifecycle_idempotent_and_disposed_terminal.2.2.2.2.2.2.2.1
     (publisherDispose initialPublisherState) h⟩

/-- C9 counterexample: `maxQueueSize = 3/2` is not a positive finite
integer, yet construction does not fail — `clampQueueSize` floors it
to capacity 1 and `createEventPublisher` succeeds. -/
theorem clampQueueSize_accepts_noninteger_counterexample :
    clampQueueSize (some (.finite (3 / 2))) = .ok 1 ∧
    createEventPublisherInit (some (.finite (3 / 2))) =
      .ok (1, initialPublisherState) ∧
    ¬ ∃ n : ℤ, ((3 : ℚ) / 2) = (n : ℚ) := by
  have h1 : clampQueueSize (some (.finite (3 / 2))) = .ok 1 := by
    simp only [clampQueueSize]
    rw [if_neg (by norm_num)]
    norm_num [Int.floor_eq_iff]
  refine ⟨h1, ?_, ?_⟩
  · unfold createEventPublisherInit
    rw [h1]
    rfl
  · rintro ⟨n, hn⟩
    have h3 : (3 : ℚ) = 2 * (n : ℚ) := by
      field_simp at hn
      linarith
    have h4 : (3 : ℤ) = 2 * n := by exact_mod_cast h3
    omega

/-- C9 (amended): construction fails with the descriptive error
exactly for a provided `maxQueueSize` that is not finite (`NaN`,
`±Infinity`) or is below 1; a finite value of at least 1 is accepted
with capacity `⌊value⌋` (a non-integer is floored, not rejected);
when omitted the capacity is 1000. -/
theorem createEventPublisher_queue_size_validation :
    (createEventPublisherInit none = .ok (1000, initialPublisherState)) ∧
    (∀ q : ℚ, 1 ≤ q →
        createEventPublisherInit (some (.finite q)) =
          .ok (⌊q⌋, initialPublisherState) ∧ 1 ≤ ⌊q⌋) ∧
    (∀ q : ℚ, q < 1 →
        createEventPublisherInit (some (.finite q)) =
          .error
            "Event publisher maxQueueSize must be a positive finite number.") ∧
    (createEventPublisherInit (some .nan) =
      .error "Event publisher maxQueueSize must be a positive finite number.") ∧
    (createEventPublisherInit (some .posInf) =
      .error "Event publisher maxQueueSize must be a positive finite number.") ∧
    (createEventPublisherInit (some .negInf) =
      .error "Event publisher maxQueueSize must be a positive finite number.") := by
  refine ⟨rfl, ?_, ?_, rfl, rfl, rfl⟩
  · intro q hq
    have hnot : ¬ q < 1 := not_lt.mpr hq
    constructor
    · simp only [createEventPublisherInit, clampQueueSize]
      rw [if_neg hnot]
      rfl
    · exact Int.le_floor.mpr (by exact_mod_cast hq)
  · intro q hq
    simp only [createEventPublisherInit, clampQueueSize]
    rw [if_pos hq]
    rfl

/-- C9 witness for the amended theorem: `maxQueueSize = 5/2` is
accepted with capacity 2, and `maxQueueSize = 1/2` is rejected. -/
theorem createEventPublisher_queue_size_validation_witness :
    (1 ≤ (5 : ℚ) / 2 ∧
      createEventPublisherInit (some (.finite (5 / 2))) =
        .ok (⌊(5 : ℚ) / 2⌋, initialPublisherState) ∧ 1 ≤ ⌊(5 : ℚ) / 2⌋) ∧
    ((1 : ℚ) / 2 < 1 ∧
      createEventPublisherInit (some (.finite (1 / 2))) =
        .error
          "Event publisher maxQueueSize must be a positive finite number.") :=
  ⟨⟨by norm_num,
    createEventPublisher_queue_size_validation.2.1 (5 / 2) (by norm_num)⟩,
   ⟨by norm_num,
    createEventPublisher_queue_size_validation.2.2.1 (1 / 2) (by norm_num)⟩⟩

/-- C6: evaluating `drain` at the failing inputs shows the dropped
items are not counted — a running publisher with no window discards
its queued item leaving the drop counter at 0 and firing no
diagnostic at all, and a throwing `send` fires only the
dispatch-failure diagnostic (no dropped-event, counter still 0) while
the next item is still delivered (the drain loop does continue). -/
theorem drain_discards_without_recording_drops :
    (drain
        { encodeEvent := fun _ payload => .ok payload,
          getWindow := none,
          eventChannel := fun name => "event/" ++ name }
        { queue := [⟨"Progress", .num 1⟩], dropped := 0, running := true,
          disposed := false, draining := false, drainScheduled := false } =
      ({ queue := [], dropped := 0, running := true, disposed := false,
         draining := false, drainScheduled := false }, [], [])) ∧
    (drain
        { encodeEvent := fun _ payload => .ok payload,
          getWindow := some
            { isDestroyed := false,
              send := fun _ payload =>
                match payload with
                | .num 1 => .error (.str "send boom")
                | _ => .ok () },
          eventChannel := fun name => "event/" ++ name }
        { queue := [⟨"Progress", .num 1⟩, ⟨"Progress", .num 2⟩], dropped := 0,
          running := true, disposed := false, draining := false,
          drainScheduled := false } =
      ({ queue := [], dropped := 0, running := true, disposed := false,
         draining := false, drainScheduled := false },
       [.dispatchFailure "Progress" (.num 1) (.str "send boom")],
       [("event/Progress", .num 2)])) :=
  ⟨rfl, rfl⟩

end ElectronEffectRpc
